import Mathlib

/-!
Shallow embedding of the PhoenixHosting command-dispatch protocol.

Panel side (`phoenix-panel/js/database.js`): `fetchUserServers`,
`checkServerAccess`, `sendCommand`, and the agent-status reader from
`subscribeToAgentStatus`.

Agent side (`ServerManager`, the process supervisor): `startServer`,
`stopServer`, `restartServer`, `getServerStatus`.

JavaScript objects are modelled as association lists keyed by strings
(JS object keys are unique, so `List.lookup` is the read operation);
absent fields are `Option`; epoch-millisecond times are `Int`; the
fresh key produced by the store's `push` and the pid produced by
`spawn` are passed in as parameters; fallible operations return
`Except String`.
-/

namespace PhoenixPanel

/-- An authenticated identity as exposed by the auth module
(`getCurrentUser`): a uid and an email. -/
structure User where
  uid : String
  email : String
  deriving DecidableEq, Repr

/-- A server record at `servers/{id}`.  Only the fields the dispatcher
reads are modelled: `allowedUsers` (a JS object mapping uid to a boolean
grant; the whole field may be absent) and the `status` sub-record,
carried opaquely as an optional string so that "never mutates Status"
is expressible. -/
structure Server where
  allowedUsers : Option (List (String × Bool))
  status : Option String
  deriving DecidableEq, Repr

/-- A command record as built by `sendCommand` in database.js. -/
structure Command where
  id : String
  serverId : String
  action : String
  requestedBy : String
  requestedByEmail : String
  requestedAt : Int
  status : String
  deriving DecidableEq, Repr

/-- The store state the panel touches: `servers/*` and `commands/*`. -/
structure Store where
  servers : List (String × Server)
  commands : List (String × Command)
  deriving DecidableEq, Repr

/-- `const VALID_ACTIONS = ['start', 'stop', 'restart'];` -/
def VALID_ACTIONS : List String := ["start", "stop", "restart"]

/-- The truthiness test `server.allowedUsers && server.allowedUsers[user.uid]`
from `fetchUserServers` (grants are booleans, so truthy means `true`). -/
def memberTruthy (s : Server) (uid : String) : Bool :=
  match s.allowedUsers with
  | none => false
  | some m => (List.lookup uid m).getD false

/-- `fetchUserServers`: with no authenticated user it returns `[]`;
otherwise it walks every stored server and keeps those whose
`allowedUsers[user.uid]` is truthy. -/
def fetchUserServers (st : Store) (user : Option User) : List (String × Server) :=
  match user with
  | none => []
  | some u => st.servers.filter (fun p => memberTruthy p.2 u.uid)

/-- `checkServerAccess`: reads `servers/{serverId}/allowedUsers/{uid}` and
returns `snapshot.exists() && snapshot.val() === true`. -/
def checkServerAccess (st : Store) (user : Option User) (serverId : String) : Bool :=
  match user with
  | none => false
  | some u =>
    match List.lookup serverId st.servers with
    | none => false
    | some s =>
      match s.allowedUsers with
      | none => false
      | some m => List.lookup u.uid m == some true

/-- The error string of the `catch` block in `sendCommand` (a rejected or
failed underlying write). -/
def transientWriteError : String := "Failed to send command. Please try again."

/-- The error string for a failed local access check in `sendCommand`. -/
def accessDeniedError : String := "You do not have access to this server"

/-- `sendCommand(serverId, action)`.  `newKey` is the fresh key produced by
`push(commandsRef)`; `now` is `Date.now()`; `writeOk` models whether the
underlying `set` is admitted by the store (its rejection is the `catch`
branch).  On success the new state and the command id are returned. -/
def sendCommand (st : Store) (user : Option User) (serverId action : String)
    (newKey : String) (now : Int) (writeOk : Bool) :
    Except String (Store × String) :=
  match user with
  | none => .error "You must be signed in to send commands"
  | some u =>
    if ¬ (VALID_ACTIONS.contains action) then
      .error ("Invalid action: " ++ action ++ ". Must be one of: " ++
        String.intercalate ", " VALID_ACTIONS)
    else if ¬ (checkServerAccess st (some u) serverId) then
      .error accessDeniedError
    else if ¬ writeOk then
      .error transientWriteError
    else
      let command : Command :=
        { id := newKey, serverId := serverId, action := action,
          requestedBy := u.uid, requestedByEmail := u.email,
          requestedAt := now, status := "pending" }
      .ok ({ st with commands := st.commands ++ [(newKey, command)] }, newKey)

/-- The stored presence record at `agent/status`. -/
structure AgentStatus where
  online : Bool
  lastHeartbeat : Option Int
  deriving DecidableEq, Repr

/-- What the agent-status reader hands to its callback. -/
structure AgentView where
  online : Bool
  lastHeartbeat : Int
  message : String
  deriving DecidableEq, Repr

/-- The reader inside `subscribeToAgentStatus`:
`lastHeartbeat = status.lastHeartbeat || 0` and
`isOnline = status.online && (now - lastHeartbeat) < 90000`. -/
def agentStatusView (status : AgentStatus) (now : Int) : AgentView :=
  let lastHeartbeat := status.lastHeartbeat.getD 0
  let isOnline := status.online && decide (now - lastHeartbeat < 90000)
  { online := isOnline,
    lastHeartbeat := lastHeartbeat,
    message := if isOnline then "Agent online" else "Agent offline" }

/-- The spec's membership predicate: the uid is a member of the resource's
`allowedUsers` with a `true` grant. -/
def specMember (s : Server) (uid : String) : Prop :=
  ∃ m, s.allowedUsers = some m ∧ List.lookup uid m = some true

instance (s : Server) (uid : String) : Decidable (specMember s uid) := by
  unfold specMember
  cases h : s.allowedUsers with
  | none => exact .isFalse (by simp [h])
  | some m => exact decidable_of_iff (List.lookup uid m = some true) (by simp [h])

end PhoenixPanel

namespace PhoenixAgent

/-- A spawned child-process handle: its pid and the `killed` flag the
supervisor's guards test (`processInfo.process.killed`). -/
structure ProcHandle where
  pid : Nat
  killed : Bool
  deriving DecidableEq, Repr

/-- The per-server record the supervisor keeps in its map.  `exitCode` and
`exitTime` are set by the `exit` event hook registered at spawn time;
`error` by the `error` hook. -/
structure ProcessInfo where
  process : Option ProcHandle
  startTime : Int
  exitCode : Option Int
  exitTime : Option Int
  error : Option String
  deriving DecidableEq, Repr

/-- The supervisor state: `this.processes`, a map from serverId to
process info (association list; JS `Map` keys are unique). -/
structure ServerManager where
  processes : List (String × ProcessInfo)
  deriving DecidableEq, Repr

/-- `Map.set`: replace the entry under the key if present, else append. -/
def mapSet (l : List (String × ProcessInfo)) (k : String) (v : ProcessInfo) :
    List (String × ProcessInfo) :=
  if (List.lookup k l).isSome then
    l.map (fun p => if p.1 = k then (k, v) else p)
  else
    l ++ [(k, v)]

/-- `const parts = command.split(' ')` — a JS string is a sequence of
characters, and `split(' ')` cuts at every single space, keeping empty
segments, exactly `List.splitOn`. -/
def commandParts (command : List Char) : List (List Char) :=
  command.splitOn ' '

/-- What `startServer` hands to `spawn` plus what it returns: the
executable (`parts[0]`), the argument list (`parts.slice(1)`), the
working directory, the new pid and the recorded start time. -/
structure StartEffect where
  executable : List Char
  args : List (List Char)
  cwd : String
  pid : Nat
  startTime : Int
  deriving DecidableEq, Repr

/-- The guard of both `startServer` and `restartServer`'s stop attempt:
`this.processes.has(serverId) && processInfo.process && !processInfo.process.killed`. -/
def isTrackedUnkilled (st : ServerManager) (serverId : String) : Bool :=
  match List.lookup serverId st.processes with
  | some pi =>
    match pi.process with
    | some p => !p.killed
    | none => false
  | none => false

/-- `startServer(serverId, command, workingDirectory)`: throws
`'Server is already running'` when the map holds an entry whose
`process` is set and not `killed`; otherwise splits the command on
spaces, spawns `parts[0]` with `parts.slice(1)`, stores a fresh record
and returns the pid and start time.  `newPid` is the pid `spawn`
produces; `now` is the start time. -/
def startServer (st : ServerManager) (serverId : String) (command : List Char)
    (workingDirectory : String) (newPid : Nat) (now : Int) :
    Except String (ServerManager × StartEffect) :=
  if isTrackedUnkilled st serverId then
    .error "Server is already running"
  else
    let parts := commandParts command
    let eff : StartEffect :=
      { executable := parts.headD [], args := parts.tail,
        cwd := workingDirectory, pid := newPid, startTime := now }
    let pi : ProcessInfo :=
      { process := some ⟨newPid, false⟩, startTime := now,
        exitCode := none, exitTime := none, error := none }
    .ok ({ processes := mapSet st.processes serverId pi }, eff)

/-- The `exit` event hook registered at spawn time: records the exit code
and exit time on the tracked entry (the handle itself is not removed and
its `killed` flag is untouched). -/
def recordExit (st : ServerManager) (serverId : String) (code : Int) (t : Int) :
    ServerManager :=
  match List.lookup serverId st.processes with
  | none => st
  | some pi =>
    { processes := mapSet st.processes serverId
        { pi with exitCode := some code, exitTime := some t } }

/-- The observable effect of a successful `stopServer`: SIGTERM to the
process group (`process.kill(-pid, 'SIGTERM')`) and a SIGKILL fallback
armed `forceDelayMs` milliseconds later. -/
structure StopEffect where
  pgidOf : Nat
  signal : String
  forceSignal : String
  forceDelayMs : Nat
  deriving DecidableEq, Repr

/-- `stopServer(serverId)`: `'Server is not running'` when no entry or no
process object; `'Server is already stopped'` when the handle is marked
killed; otherwise SIGTERM to the group and a fixed 10000 ms SIGKILL
timer.  `killResult` models whether `process.kill` threw (`some msg`
reproduces the `catch` rethrow).  The map is never modified. -/
def stopServer (st : ServerManager) (serverId : String)
    (killResult : Option String) : Except String StopEffect :=
  match List.lookup serverId st.processes with
  | none => .error "Server is not running"
  | some pi =>
    match pi.process with
    | none => .error "Server is not running"
    | some p =>
      if p.killed then .error "Server is already stopped"
      else
        match killResult with
        | some m => .error ("Failed to stop server: " ++ m)
        | none =>
          .ok { pgidOf := p.pid, signal := "SIGTERM",
                forceSignal := "SIGKILL", forceDelayMs := 10000 }

/-- The fixed delay `restartServer` sleeps before re-invoking start
(`setTimeout(..., 3000)`). -/
def restartWaitMs : Nat := 3000

/-- `restartServer(serverId, command, workingDirectory)`: if an un-killed
process object is tracked, attempt `stopServer` with any error swallowed
(`catch { /* continue */ }`); then, after the fixed `restartWaitMs`
sleep, invoke `startServer` on whatever state the exit hooks have
produced by then (`stAfterWait`).  The stop attempt's effect, when one
was made and succeeded, is returned alongside the start result. -/
def restartServer (st : ServerManager) (serverId : String) (command : List Char)
    (workingDirectory : String) (killResult : Option String)
    (stAfterWait : ServerManager) (newPid : Nat) (now : Int) :
    Option StopEffect × Except String (ServerManager × StartEffect) :=
  let stopAttempt :=
    if isTrackedUnkilled st serverId then
      (stopServer st serverId killResult).toOption
    else none
  (stopAttempt, startServer stAfterWait serverId command workingDirectory newPid now)

/-- What `getServerStatus` returns. -/
structure ServerStatus where
  status : String
  uptime : Int
  pid : Option Nat
  lastExitCode : Option Int
  deriving DecidableEq, Repr

/-- `getServerStatus(serverId)`: `stopped`/uptime 0 when no entry or no
process object; `stopped` with `lastExitCode` when the handle is killed
or an exit code was recorded; otherwise `running` with
`Math.floor((Date.now() - startTime) / 1000)` seconds of uptime. -/
def getServerStatus (st : ServerManager) (serverId : String) (now : Int) :
    ServerStatus :=
  match List.lookup serverId st.processes with
  | none => { status := "stopped", uptime := 0, pid := none, lastExitCode := none }
  | some pi =>
    match pi.process with
    | none => { status := "stopped", uptime := 0, pid := none, lastExitCode := none }
    | some p =>
      if p.killed || pi.exitCode.isSome then
        { status := "stopped", uptime := 0, pid := none, lastExitCode := pi.exitCode }
      else
        { status := "running", uptime := Int.fdiv (now - pi.startTime) 1000,
          pid := some p.pid, lastExitCode := none }

/-- The spec's notion of a live process handle: a spawned process that has
neither been killed nor observed to exit — exactly the condition under
which `getServerStatus` reports `running`. -/
def liveProcess (pi : ProcessInfo) : Prop :=
  ∃ p, pi.process = some p ∧ p.killed = false ∧ pi.exitCode = none

instance (pi : ProcessInfo) : Decidable (liveProcess pi) := by
  unfold liveProcess
  cases h : pi.process with
  | none => exact .isFalse (by simp [h])
  | some p =>
    exact decidable_of_iff (p.killed = false ∧ pi.exitCode = none) (by simp [h])

end PhoenixAgent

/-! ## Helper lemmas -/

namespace PhoenixPanel

theorem lookup_append_fresh {β : Type} (l : List (String × β)) (k : String) (v : β)
    (h : k ∉ l.map Prod.fst) : List.lookup k (l ++ [(k, v)]) = some v := by
  induction l with
  | nil => simp [List.lookup]
  | cons a l ih =>
    simp only [List.map_cons, List.mem_cons] at h
    push_neg at h
    obtain ⟨h1, h2⟩ := h
    have hk : (k == a.1) = false := by
      simp only [beq_eq_false_iff_ne, ne_eq]
      exact h1
    cases a with
    | mk a1 a2 =>
      simp only [List.cons_append, List.lookup]
      simp only at hk
      rw [hk]
      exact ih h2

theorem checkServerAccess_iff (st : Store) (u : User) (serverId : String) :
    checkServerAccess st (some u) serverId = true ↔
      ∃ s, List.lookup serverId st.servers = some s ∧ specMember s u.uid := by
  unfold checkServerAccess specMember
  cases h : List.lookup serverId st.servers with
  | none => simp
  | some s =>
    cases hm : s.allowedUsers with
    | none => simp [hm]
    | some m => simp [hm]

theorem memberTruthy_iff (s : Server) (uid : String) :
    memberTruthy s uid = true ↔ specMember s uid := by
  unfold memberTruthy specMember
  cases h : s.allowedUsers with
  | none => simp
  | some m =>
    cases hl : List.lookup uid m with
    | none => simp [hl]
    | some b => simp [hl]

end PhoenixPanel

/-! ## Claims about the Command Dispatcher (panel side) -/

namespace PhoenixPanel

/-- C1: for an authenticated caller, a valid action and an accessible
server, `sendCommand` appends — in one write — a single complete Command
record with status `pending`, `requestedAt = now`, `requestedBy` the
caller's own uid and the fresh key as id, returns that key, and leaves
the servers (hence every resource's Status) untouched. -/
theorem sendCommand_creates_pending
    (st : Store) (u : User) (serverId action newKey : String) (now : Int)
    (hact : action ∈ VALID_ACTIONS)
    (hacc : checkServerAccess st (some u) serverId = true)
    (hfresh : newKey ∉ st.commands.map Prod.fst) :
    ∃ st' c,
      sendCommand st (some u) serverId action newKey now true = .ok (st', newKey) ∧
      c = { id := newKey, serverId := serverId, action := action,
            requestedBy := u.uid, requestedByEmail := u.email,
            requestedAt := now, status := "pending" } ∧
      st'.commands = st.commands ++ [(newKey, c)] ∧
      List.lookup newKey st'.commands = some c ∧
      st'.servers = st.servers := by
  refine ⟨⟨st.servers, st.commands ++ [(newKey,
      { id := newKey, serverId := serverId, action := action,
        requestedBy := u.uid, requestedByEmail := u.email,
        requestedAt := now, status := "pending" })]⟩, _, ?_, rfl, rfl, ?_, rfl⟩
  · simp [sendCommand, hact, hacc]
  · exact lookup_append_fresh st.commands newKey _ hfresh

/-- Witness for C1 at a concrete store. -/
theorem sendCommand_creates_pending_witness :
    ∃ st' c,
      sendCommand
        ⟨[("srv1", ⟨some [("u1", true)], some "stopped"⟩)], []⟩
        (some ⟨"u1", "u1@example.com"⟩) "srv1" "start" "k1" 1000 true =
        .ok (st', "k1") ∧
      c = { id := "k1", serverId := "srv1", action := "start",
            requestedBy := "u1", requestedByEmail := "u1@example.com",
            requestedAt := 1000, status := "pending" } ∧
      st'.commands = [] ++ [("k1", c)] ∧
      List.lookup "k1" st'.commands = some c ∧
      st'.servers = [("srv1", ⟨some [("u1", true)], some "stopped"⟩)] :=
  sendCommand_creates_pending
    ⟨[("srv1", ⟨some [("u1", true)], some "stopped"⟩)], []⟩
    ⟨"u1", "u1@example.com"⟩ "srv1" "start" "k1" 1000
    (by decide) (by decide) (by decide)

/-- C2: for an action outside {start, stop, restart}, `sendCommand`
results in an error — no state is produced, so no Command record with
such an action is ever written by the dispatcher. -/
theorem sendCommand_rejects_invalid_action
    (st : Store) (user : Option User) (serverId action newKey : String)
    (now : Int) (writeOk : Bool)
    (hact : action ∉ VALID_ACTIONS) :
    ∃ e, sendCommand st user serverId action newKey now writeOk = .error e := by
  cases user with
  | none => exact ⟨_, rfl⟩
  | some u =>
    exact ⟨"Invalid action: " ++ action ++ ". Must be one of: " ++
      String.intercalate ", " VALID_ACTIONS, by simp [sendCommand, hact]⟩

/-- Witness for C2: `action:"delete"` is rejected. -/
theorem sendCommand_rejects_invalid_action_witness :
    ∃ e, sendCommand
        ⟨[("srv1", ⟨some [("u1", true)], some "stopped"⟩)], []⟩
        (some ⟨"u1", "u1@example.com"⟩) "srv1" "delete" "k1" 1000 true =
        .error e :=
  sendCommand_rejects_invalid_action
    ⟨[("srv1", ⟨some [("u1", true)], some "stopped"⟩)], []⟩
    (some ⟨"u1", "u1@example.com"⟩) "srv1" "delete" "k1" 1000 true (by decide)

/-- C3: when the caller is not a member of the target's `allowedUsers`
(with a `true` grant), `sendCommand` fails with the dedicated
"not authorized" error — distinct from the transient-write error — and
produces no state, regardless of whether the underlying write would
have been admitted. -/
theorem sendCommand_access_check
    (st : Store) (u : User) (serverId action newKey : String) (now : Int)
    (writeOk : Bool)
    (hact : action ∈ VALID_ACTIONS)
    (hmem : ∀ s, List.lookup serverId st.servers = some s → ¬ specMember s u.uid) :
    sendCommand st (some u) serverId action newKey now writeOk =
      .error accessDeniedError ∧
    accessDeniedError ≠ transientWriteError := by
  have hca : checkServerAccess st (some u) serverId = false := by
    cases h : checkServerAccess st (some u) serverId with
    | false => rfl
    | true =>
      obtain ⟨s, hs, hm⟩ := (checkServerAccess_iff st u serverId).mp h
      exact absurd hm (hmem s hs)
  exact ⟨by simp [sendCommand, hact, hca], by decide⟩

/-- Witness for C3: u1 holds only a `false` grant on srv1, so the
dispatch fails with the access error. -/
theorem sendCommand_access_check_witness :
    sendCommand ⟨[("srv1", ⟨some [("u1", false)], some "stopped"⟩)], []⟩
        (some ⟨"u1", "u1@example.com"⟩) "srv1" "start" "k1" 5 true =
      .error accessDeniedError ∧
    accessDeniedError ≠ transientWriteError := by
  refine sendCommand_access_check
    ⟨[("srv1", ⟨some [("u1", false)], some "stopped"⟩)], []⟩
    ⟨"u1", "u1@example.com"⟩ "srv1" "start" "k1" 5 true (by decide) ?_
  intro s hs
  have h0 : List.lookup "srv1"
      (⟨[("srv1", ⟨some [("u1", false)], some "stopped"⟩)], []⟩ : Store).servers =
      some ⟨some [("u1", false)], some "stopped"⟩ := rfl
  rw [h0] at hs
  injection hs with h1
  rw [← h1]
  decide

/-- C4: `fetchUserServers` returns exactly the stored servers on which
the authenticated caller's uid holds a `true` grant in `allowedUsers`. -/
theorem fetchUserServers_exact
    (st : Store) (u : User) (k : String) (s : Server) :
    (k, s) ∈ fetchUserServers st (some u) ↔
      (k, s) ∈ st.servers ∧ specMember s u.uid := by
  unfold fetchUserServers
  rw [List.mem_filter]
  simp [memberTruthy_iff]

/-- C5: the agent-status reader reports offline whenever the heartbeat
is older than the 90000 ms threshold, whatever the stored flag says. -/
theorem agentStatus_offline_when_stale
    (status : AgentStatus) (now : Int)
    (h : now - status.lastHeartbeat.getD 0 > 90000) :
    (agentStatusView status now).online = false := by
  have hlt : ¬ (now - status.lastHeartbeat.getD 0 < 90000) := by omega
  simp [agentStatusView, hlt]

/-- Witness for C5: heartbeat 91 s in the past with `online:true` stored
is reported offline. -/
theorem agentStatus_offline_when_stale_witness :
    (91000 : Int) - (some (0 : Int)).getD 0 > 90000 ∧
    (agentStatusView ⟨true, some 0⟩ 91000).online = false :=
  ⟨by decide, agentStatus_offline_when_stale ⟨true, some 0⟩ 91000 (by decide)⟩

end PhoenixPanel

/-! ## Claims about the Process Supervisor (agent side) -/

namespace PhoenixAgent

/-- The empty supervisor. -/
def sm0 : ServerManager := ⟨[]⟩

/-- A tracked process that exited on its own: exit hook recorded code 0,
but the handle was never killed by a supervisor signal. -/
def exitedInfo : ProcessInfo :=
  { process := some ⟨42, false⟩, startTime := 0,
    exitCode := some 0, exitTime := some 5000, error := none }

/-- Supervisor tracking `srv1` whose process exited on its own. -/
def exitedSM : ServerManager := ⟨[("srv1", exitedInfo)]⟩

/-- A tracked process that is alive: spawned, not killed, no exit seen. -/
def runningInfo : ProcessInfo :=
  { process := some ⟨42, false⟩, startTime := 0,
    exitCode := none, exitTime := none, error := none }

/-- Supervisor tracking a live `srv1`. -/
def runningSM : ServerManager := ⟨[("srv1", runningInfo)]⟩

/-- C6: on a tracked entry whose process exited by itself (exit code
recorded, never killed) there is no live handle and `getServerStatus`
itself reports `stopped`, yet `startServer` still throws
`'Server is already running'` — so "AlreadyRunning iff a live handle
exists" fails on the code in the only-if direction. -/
theorem startServer_already_running_without_live_handle :
    ¬ liveProcess exitedInfo ∧
    (getServerStatus exitedSM "srv1" 9000).status = "stopped" ∧
    startServer exitedSM "srv1" ("node server.js".toList) "/srv" 43 9000 =
      .error "Server is already running" :=
  ⟨by decide, rfl, rfl⟩

/-- C10: whenever the tracked entry has a recorded exit code and an
un-killed handle, `getServerStatus` reports `stopped` with uptime 0
while `startServer` for the same server throws
`'Server is already running'`. -/
theorem selfExit_reads_stopped_but_start_blocked
    (st : ServerManager) (serverId : String) (pi : ProcessInfo) (p : ProcHandle)
    (command : List Char) (wd : String) (newPid : Nat) (now : Int)
    (hlk : List.lookup serverId st.processes = some pi)
    (hp : pi.process = some p)
    (hk : p.killed = false)
    (hx : pi.exitCode.isSome = true) :
    (getServerStatus st serverId now).status = "stopped" ∧
    (getServerStatus st serverId now).uptime = 0 ∧
    startServer st serverId command wd newPid now =
      .error "Server is already running" := by
  refine ⟨?_, ?_, ?_⟩ <;>
    simp [getServerStatus, startServer, isTrackedUnkilled, hlk, hp, hk, hx]

/-- Witness for C10 at the concrete self-exited state. -/
theorem selfExit_reads_stopped_but_start_blocked_witness :
    (getServerStatus exitedSM "srv1" 9000).status = "stopped" ∧
    (getServerStatus exitedSM "srv1" 9000).uptime = 0 ∧
    startServer exitedSM "srv1" ("node server.js".toList) "/srv" 44 9000 =
      .error "Server is already running" :=
  selfExit_reads_stopped_but_start_blocked exitedSM "srv1" exitedInfo ⟨42, false⟩
    ("node server.js".toList) "/srv" 44 9000 rfl rfl rfl rfl

/-- C7 counterexample: for the configured command
`java -jar my server.jar` — whose intended argument list is
`["-jar", "my server.jar"]` with the space-containing path one
argument — `startServer` hands `spawn` the re-split list
`["-jar", "my", "server.jar"]`: the argument with a space does not
arrive intact. -/
theorem startServer_splits_spaced_argument :
    (startServer sm0 "srv1" ("java -jar my server.jar".toList) "/srv" 42 0).toOption.map
        (fun r => (r.2.executable, r.2.args)) =
      some ("java".toList, ["-jar".toList, "my".toList, "server.jar".toList]) ∧
    ["-jar".toList, "my".toList, "server.jar".toList] ≠
      ["-jar".toList, "my server.jar".toList] :=
  ⟨rfl, by decide⟩

/-- C7 amended: `startServer` passes `spawn` an executable and a discrete
argument list, but they are the space-split segments of the single
configured command string — joining them back with single spaces
reconstructs that string exactly — so no shell string is built, yet an
argument containing a space is split rather than passed intact. -/
theorem startServer_spawn_from_split
    (st : ServerManager) (serverId : String) (command : List Char) (wd : String)
    (newPid : Nat) (now : Int) (st' : ServerManager) (eff : StartEffect)
    (h : startServer st serverId command wd newPid now = .ok (st', eff)) :
    eff.executable :: eff.args = command.splitOn ' ' ∧
    [' '].intercalate (eff.executable :: eff.args) = command := by
  have hsp : command.splitOn ' ' ≠ [] := by
    simp only [List.splitOn]
    exact List.splitOnP_ne_nil _ command
  have hparts : (commandParts command).headD [] :: (commandParts command).tail =
      command.splitOn ' ' := by
    unfold commandParts
    cases hcp : command.splitOn ' ' with
    | nil => exact absurd hcp hsp
    | cons a t => simp
  unfold startServer at h
  split at h
  · exact absurd h (by simp)
  · simp only [Except.ok.injEq, Prod.mk.injEq] at h
    obtain ⟨-, h2⟩ := h
    subst h2
    exact ⟨hparts, by rw [hparts]; exact List.intercalate_splitOn command ' '⟩

/-- Witness for the amended C7 on a concrete successful spawn. -/
theorem startServer_spawn_from_split_witness :
    ("run".toList : List Char) :: ["a".toList] = ("run a".toList).splitOn ' ' ∧
    [' '].intercalate (("run".toList : List Char) :: ["a".toList]) = "run a".toList := by
  have h : startServer sm0 "srv1" ("run a".toList) "/srv" 7 0 =
      .ok (⟨[("srv1", ⟨some ⟨7, false⟩, 0, none, none, none⟩)]⟩,
           ⟨"run".toList, ["a".toList], "/srv", 7, 0⟩) := rfl
  exact startServer_spawn_from_split sm0 "srv1" ("run a".toList) "/srv" 7 0 _ _ h

/-- C8 counterexample: on a live process, `stopServer` arms its forced
kill after the hardcoded 10000 ms — the supervisor receives no
per-resource `stopTimeout` at all, so with the design's example default
of 30 s (30000 ms) the armed delay disagrees. -/
theorem stopServer_fixed_timeout_counterexample :
    stopServer runningSM "srv1" none =
      .ok { pgidOf := 42, signal := "SIGTERM", forceSignal := "SIGKILL",
            forceDelayMs := 10000 } ∧
    (10000 : Nat) ≠ 30000 :=
  ⟨rfl, by decide⟩

/-- C8 amended: `stopServer` fails with `'Server is not running'` when no
entry (or no process object) is tracked and with
`'Server is already stopped'` when the handle is marked killed;
otherwise it sends SIGTERM to the process group and arms a SIGKILL
fallback after a fixed 10000 ms delay — not a per-resource configured
`stopTimeout` — treating the stop as success. -/
theorem stopServer_amended (st : ServerManager) (serverId : String) :
    (List.lookup serverId st.processes = none →
      stopServer st serverId none = .error "Server is not running") ∧
    (∀ pi, List.lookup serverId st.processes = some pi → pi.process = none →
      stopServer st serverId none = .error "Server is not running") ∧
    (∀ pi p, List.lookup serverId st.processes = some pi → pi.process = some p →
      p.killed = true →
      stopServer st serverId none = .error "Server is already stopped") ∧
    (∀ pi p, List.lookup serverId st.processes = some pi → pi.process = some p →
      p.killed = false →
      stopServer st serverId none =
        .ok { pgidOf := p.pid, signal := "SIGTERM", forceSignal := "SIGKILL",
              forceDelayMs := 10000 }) := by
  refine ⟨fun h => ?_, fun pi h hp => ?_, fun pi p h hp hk => ?_,
    fun pi p h hp hk => ?_⟩ <;> simp [stopServer, *]

/-- Witness for the amended C8: stopping the live `srv1` signals group 42
and arms the 10000 ms fallback. -/
theorem stopServer_amended_witness :
    stopServer runningSM "srv1" none =
      .ok { pgidOf := 42, signal := "SIGTERM", forceSignal := "SIGKILL",
            forceDelayMs := 10000 } :=
  (stopServer_amended runningSM "srv1").2.2.2 runningInfo ⟨42, false⟩ rfl rfl rfl

/-- C9 counterexample: with the old process still live when the fixed
3000 ms wait expires, restart nonetheless re-invokes start at that
moment — it did not wait for confirmed termination — and the re-invoked
start throws `'Server is already running'`. -/
theorem restart_reinvokes_start_while_live :
    liveProcess runningInfo ∧
    restartServer runningSM "srv1" ("node server.js".toList) "/srv" none
        runningSM 43 5000 =
      (some { pgidOf := 42, signal := "SIGTERM", forceSignal := "SIGKILL",
              forceDelayMs := 10000 },
       .error "Server is already running") :=
  ⟨⟨⟨42, false⟩, rfl, rfl, rfl⟩, rfl⟩

/-- C9 amended: restart attempts stop (errors swallowed) and always
re-invokes start after the fixed 3000 ms sleep, without polling process
liveness: whenever the tracked entry still holds an un-killed process
object at wait expiry, the re-invoked start fails with
`'Server is already running'`, and when the entry is gone the restart
spawns the new process. -/
theorem restartServer_amended
    (st stAfterWait : ServerManager) (serverId : String) (command : List Char)
    (wd : String) (killResult : Option String) (newPid : Nat) (now : Int) :
    restartWaitMs = 3000 ∧
    (∀ pi p, List.lookup serverId stAfterWait.processes = some pi →
      pi.process = some p → p.killed = false →
      (restartServer st serverId command wd killResult stAfterWait newPid now).2 =
        .error "Server is already running") ∧
    (List.lookup serverId stAfterWait.processes = none →
      ∃ st' eff,
        (restartServer st serverId command wd killResult stAfterWait newPid now).2 =
          .ok (st', eff) ∧ eff.pid = newPid) := by
  refine ⟨rfl, fun pi p h hp hk => ?_, fun h => ?_⟩
  · simp [restartServer, startServer, isTrackedUnkilled, h, hp, hk]
  · refine ⟨⟨mapSet stAfterWait.processes serverId
        ⟨some ⟨newPid, false⟩, now, none, none, none⟩⟩,
      ⟨(commandParts command).headD [], (commandParts command).tail,
        wd, newPid, now⟩, ?_, rfl⟩
    simp [restartServer, startServer, isTrackedUnkilled, h]

/-- Witness for the amended C9: concrete restart against a still-live
old process fails with `'Server is already running'`. -/
theorem restartServer_amended_witness :
    (restartServer runningSM "srv1" ("node server.js".toList) "/srv" none
        runningSM 45 5000).2 = .error "Server is already running" :=
  (restartServer_amended runningSM runningSM "srv1" ("node server.js".toList)
    "/srv" none 45 5000).2.1 runningInfo ⟨42, false⟩ rfl rfl rfl

end PhoenixAgent
